import Mathlib

/-
Verification development for the Diesel_Analyst ingestion and audit pipeline
(app/fetchers/fred.py, app/fetchers/eia.py, app/models.py, app/routes/fetch.py).

Modelling conventions used throughout:
  - Numeric values crossing the Python float() string boundary are modelled
    exactly as rationals; a string that is not a plain decimal literal parses
    to none, modelling the ValueError raised by float().
  - Calendar dates are kept as their ISO "YYYY-MM-DD" strings: the code parses
    them with strptime and only ever compares them for equality inside the
    natural key, and strptime/isoformat is injective on well-formed dates, so
    the string is a faithful stand-in for the date value.
  - Wall-clock timestamps (datetime.now(), func.now()) taken during one
    invocation are modelled by a single Nat parameter `now`.
  - The network is modelled by an `Upstream` value describing what the HTTP
    call would yield if made; the number of network calls actually made is
    returned alongside each fetch result.
-/

namespace DieselAnalyst

/-- Decimal digit test used by the exact model of Python float parsing. -/
def isDigitChar (c : Char) : Bool := 48 ≤ c.toNat && c.toNat ≤ 57

/-- Interpret a list of digit characters as a natural number. -/
def digitsToNat (cs : List Char) : Nat := cs.foldl (fun a c => a * 10 + (c.toNat - 48)) 0

/-- Models Python float(s) on plain decimal literals: optional sign, an
integer part and an optional fractional part, at least one digit overall.
Well-formed literals are represented exactly as rationals; anything else
(in particular "abc", "", ".") yields none, modelling the ValueError that
float() raises on such input. -/
def parseDecimal (s : String) : Option ℚ :=
  let cs := s.toList
  let sgn : Int := match cs with
    | '-' :: _ => -1
    | _ => 1
  let body : List Char := match cs with
    | '-' :: r => r
    | '+' :: r => r
    | r => r
  let ip := body.takeWhile (fun c => c != '.')
  match body.dropWhile (fun c => c != '.') with
  | [] =>
    if !ip.isEmpty && ip.all isDigitChar then
      some (mkRat (sgn * Int.ofNat (digitsToNat ip)) 1)
    else none
  | _ :: fp =>
    if (!ip.isEmpty || !fp.isEmpty) && ip.all isDigitChar && fp.all isDigitChar &&
        fp.all (fun c => c != '.') then
      some (mkRat (sgn * Int.ofNat (digitsToNat ip * 10 ^ fp.length + digitsToNat fp))
        (10 ^ fp.length))
    else none

/-- One raw observation of a FRED /series/observations JSON response:
the "date" field and the "value" field as obtained by obs.get("value")
(none models an absent value field). -/
structure RawObs where
  date : String
  value : Option String
deriving DecidableEq, Repr

/-- One parsed FRED observation as built by fetch_series:
a dict with "date" and "value" keys. -/
structure Obs where
  date : String
  value : ℚ
deriving DecidableEq, Repr

/-- One raw row of an EIA v2 response's response.data array: the "period"
field, the "value" field (none models a null or absent value), and the
optional "units" field. -/
structure RawStock where
  period : String
  value : Option String
  units : Option String
deriving DecidableEq, Repr

/-- One parsed EIA observation as built by fetch_distillate_stocks:
a dict with "date", "value" and "unit" keys. -/
structure StockObs where
  date : String
  value : ℚ
  unit : String
deriving DecidableEq, Repr

/-- What the upstream HTTP call would yield if it were made: a JSON body
(already decoded to the provider's observation rows), an HTTP error status
(raise_for_status), or some other exception (unreachable host, bad JSON). -/
inductive Upstream (α : Type) where
  | ok (rows : List α)
  | httpError (status : Nat) (msg : String)
  | exn (msg : String)
deriving DecidableEq, Repr

/-- Result dictionary shared by fetch_series and fetch_distillate_stocks:
keys "success", "data", "error", "count" (count is present only on the
success path in the source; on failure paths we set it to 0). -/
structure FetchResult (α : Type) where
  success : Bool
  data : List α
  error : Option String
  count : Nat
deriving DecidableEq, Repr

/-- The observation-parsing loop of fetch_series. A point whose value is
absent, empty, or the "." missing-value sentinel is skipped (the `if value
and value != "."` guard). Any other value is passed to float(); a parse
failure there raises, which the surrounding catch-all except turns into a
whole-request failure -- modelled by the error branch aborting the whole
parse. -/
def parse_observations_fred : List RawObs → Except String (List Obs)
  | [] => Except.ok []
  | o :: rest =>
    match o.value with
    | none => parse_observations_fred rest
    | some v =>
      if v = "" ∨ v = "." then parse_observations_fred rest
      else
        match parseDecimal v with
        | none => Except.error ("could not convert string to float: " ++ v)
        | some q => (parse_observations_fred rest).map (fun os => ⟨o.date, q⟩ :: os)

/-- The observation-parsing loop of fetch_distillate_stocks. A point whose
value is null/absent is skipped (the `if value is not None` guard); any
present value is passed to float(), and a parse failure there aborts the
whole request via the surrounding catch-all except. The "units" field
defaults to "thousand barrels". -/
def parse_observations_eia : List RawStock → Except String (List StockObs)
  | [] => Except.ok []
  | o :: rest =>
    match o.value with
    | none => parse_observations_eia rest
    | some v =>
      match parseDecimal v with
      | none => Except.error ("could not convert string to float: " ++ v)
      | some q =>
        (parse_observations_eia rest).map
          (fun os => ⟨o.period, q, o.units.getD "thousand barrels"⟩ :: os)

/-- fetch_series (fred.py). Returns the result dictionary together with the
number of network calls made. With no API key configured it returns the
configuration error before touching the network (0 calls). Otherwise one
HTTP call is made and its outcome parsed; every exception inside the try
block (HTTP status error, unreachable, malformed value) becomes a failure
dictionary. -/
def fetch_series (api_key : Option String) (upstream : Upstream RawObs) :
    FetchResult Obs × Nat :=
  match api_key with
  | none => (⟨false, [], some "No FRED API key configured", 0⟩, 0)
  | some _ =>
    match upstream with
    | .ok rows =>
      match parse_observations_fred rows with
      | .ok obs => (⟨true, obs, none, obs.length⟩, 1)
      | .error e => (⟨false, [], some e, 0⟩, 1)
    | .httpError status msg =>
      (⟨false, [], some ("HTTP " ++ toString status ++ ": " ++ msg), 0⟩, 1)
    | .exn msg => (⟨false, [], some msg, 0⟩, 1)

/-- fetch_distillate_stocks (eia.py), analogous to fetch_series. -/
def fetch_distillate_stocks (api_key : Option String) (upstream : Upstream RawStock) :
    FetchResult StockObs × Nat :=
  match api_key with
  | none => (⟨false, [], some "No EIA API key configured", 0⟩, 0)
  | some _ =>
    match upstream with
    | .ok rows =>
      match parse_observations_eia rows with
      | .ok obs => (⟨true, obs, none, obs.length⟩, 1)
      | .error e => (⟨false, [], some e, 0⟩, 1)
    | .httpError status msg =>
      (⟨false, [], some ("HTTP " ++ toString status ++ ": " ++ msg), 0⟩, 1)
    | .exn msg => (⟨false, [], some msg, 0⟩, 1)

/-- A stored row of one of the two observation tables (models.py), generic in
the shape of its natural key so that the prices table (key source, series_id,
date) and the inventories table (key source, region, product, date) share one
upsert model. id models the autoincrement primary key; fetched_at the
DateTime column. -/
structure GRow (κ : Type) where
  id : Nat
  key : κ
  value : Option ℚ
  unit : Option String
  fetched_at : Nat
deriving DecidableEq, Repr

/-- Autoincrement id assignment: one more than the largest id in the table. -/
def nextId {κ : Type} (t : List (GRow κ)) : Nat :=
  (t.map (fun r => r.id)).foldr max 0 + 1

/-- The INSERT ... ON CONFLICT(natural key) DO UPDATE SET value, fetched_at
statement issued per observation by both fetchers: if a row with the key
exists it is updated in place (only value and fetched_at are in the SET
clause), otherwise a fresh row is inserted with the given value and unit. -/
def gUpsert {κ : Type} [DecidableEq κ] (t : List (GRow κ)) (k : κ) (v : ℚ)
    (u : String) (now : Nat) : List (GRow κ) :=
  if t.any (fun r => decide (r.key = k)) then
    t.map (fun r => if r.key = k then { r with value := some v, fetched_at := now } else r)
  else
    t ++ [⟨nextId t, k, some v, some u, now⟩]

/-- The per-observation store loop of fetch_and_store_series /
fetch_and_store_stocks: each observation is upserted inside a try block and
counted on success; a row whose execute raises (skip o = true, the
StorageConflictError case) is caught, printed and skipped without being
counted. Returns the final table and the records_inserted counter. -/
def gApply {κ α : Type} [DecidableEq κ] (skip : α → Bool) (keyOf : α → κ)
    (valOf : α → ℚ) (unitOf : α → String) (now : Nat) (t : List (GRow κ)) :
    List α → List (GRow κ) × Nat
  | [] => (t, 0)
  | o :: rest =>
    if skip o then gApply skip keyOf valOf unitOf now t rest
    else
      let t2 := gUpsert t (keyOf o) (valOf o) (unitOf o) now
      let p := gApply skip keyOf valOf unitOf now t2 rest
      (p.1, p.2 + 1)

/-- Natural key of the prices table: (source, series_id, date). -/
abbrev PriceKey := String × String × String

/-- Natural key of the inventories table: (source, region, product, date). -/
abbrev InvKey := String × String × String × String

/-- A row of the prices table (models.py class Price). -/
abbrev PriceRow := GRow PriceKey

/-- A row of the inventories table (models.py class Inventory). -/
abbrev InvRow := GRow InvKey

/-- A row of the fetch_log audit table (models.py class FetchLog).
records_fetched has column default 0; status is one of in_progress, success,
error. -/
structure FetchLogRow where
  id : Nat
  source : String
  endpoint : Option String
  series_id : Option String
  started_at : Nat
  completed_at : Option Nat
  status : String
  records_fetched : Nat
  error_message : Option String
deriving DecidableEq, Repr

/-- Autoincrement id for the fetch_log table. -/
def nextLogId (logs : List FetchLogRow) : Nat :=
  (logs.map (fun r => r.id)).foldr max 0 + 1

/-- The persistent database state touched by the ingestion pipeline. -/
structure DB where
  prices : List PriceRow
  inventories : List InvRow
  fetch_log : List FetchLogRow
deriving DecidableEq, Repr

/-- The FRED series registry (fred.py FRED_SERIES): series id, name, unit. -/
def FRED_SERIES : List (String × String × String) :=
  [("DCOILBRENTEU", "Brent Crude", "$/bbl"),
   ("DCOILWTICO", "WTI Crude", "$/bbl"),
   ("DDFUELUSGULF", "ULSD Gulf Coast", "$/gal"),
   ("DDFUELNYH", "ULSD NY Harbor", "$/gal")]

/-- Unit lookup in fetch_and_store_series: FRED_SERIES.get(series_id, {})
followed by .get("unit", "unknown"). -/
def fred_unit (series_id : String) : String :=
  match FRED_SERIES.find? (fun e => e.1 == series_id) with
  | some e => e.2.2
  | none => "unknown"

/-- The EIA area registry (eia.py EIA_AREAS): area code, name, region. -/
def EIA_AREAS : List (String × String × String) :=
  [("NUS", "US Total", "US"),
   ("R10", "PADD 1 - East Coast", "PADD1"),
   ("R20", "PADD 2 - Midwest", "PADD2"),
   ("R30", "PADD 3 - Gulf Coast", "PADD3"),
   ("R40", "PADD 4 - Rocky Mountain", "PADD4"),
   ("R50", "PADD 5 - West Coast", "PADD5")]

/-- Area lookup in fetch_and_store_stocks: EIA_AREAS.get(area_code,
a default dict with name and region both the raw area code). Returns
(name, region). -/
def eia_area_info (area_code : String) : String × String :=
  match EIA_AREAS.find? (fun e => e.1 == area_code) with
  | some e => (e.2.1, e.2.2)
  | none => (area_code, area_code)

/-- The summary dictionary returned by fetch_and_store_series /
fetch_and_store_stocks: on success it carries the selector label
(series_id resp. region) and records_fetched; on failure the fetch result's
error string is passed through. -/
inductive StoreOutcome where
  | ok (label : String) (records_fetched : Nat)
  | err (error : String)
deriving DecidableEq, Repr

/-- Whether a store outcome is the success dictionary. -/
def StoreOutcome.isOk : StoreOutcome → Bool
  | .ok _ _ => true
  | .err _ => false

/-- The records_fetched field of a success outcome (0 for failures, matching
result.get with default 0 in the route aggregation). -/
def StoreOutcome.records : StoreOutcome → Nat
  | .ok _ n => n
  | .err _ => 0

/-- Result of one orchestrator invocation: the returned summary, the database
state as committed right after the in_progress audit entry was added (db_mid,
visible before the network call), and the final database state at return. -/
structure RunResult where
  outcome : StoreOutcome
  db_mid : DB
  db_fin : DB
deriving DecidableEq, Repr

/-- fetch_and_store_series (fred.py). Adds an in_progress fetch_log entry and
commits, runs fetch_series, and either completes the entry as error (passing
the fetch failure through) or upserts every parsed observation into prices
and completes the entry as success with the records_inserted count. The
row_fails parameter models which per-row execute calls raise (caught and
skipped by the inner try/except). -/
def fetch_and_store_series (api_key : Option String) (upstream : Upstream RawObs)
    (row_fails : Obs → Bool) (db : DB) (series_id : String) (now : Nat) : RunResult :=
  let entry : FetchLogRow :=
    { id := nextLogId db.fetch_log, source := "FRED",
      endpoint := some "/series/observations", series_id := some series_id,
      started_at := now, completed_at := none, status := "in_progress",
      records_fetched := 0, error_message := none }
  let db1 : DB := { db with fetch_log := db.fetch_log ++ [entry] }
  let result := (fetch_series api_key upstream).1
  if result.success then
    let unit := fred_unit series_id
    let p := gApply row_fails (fun o : Obs => (("FRED" : String), series_id, o.date))
      (fun o => o.value) (fun _ => unit) now db1.prices result.data
    let entry2 := { entry with
      status := "success", records_fetched := p.2, completed_at := some now }
    { outcome := .ok series_id p.2,
      db_mid := db1,
      db_fin := { db1 with prices := p.1, fetch_log := db.fetch_log ++ [entry2] } }
  else
    let entry2 := { entry with
      status := "error", error_message := result.error, completed_at := some now }
    { outcome := .err (result.error.getD ""),
      db_mid := db1,
      db_fin := { db1 with fetch_log := db.fetch_log ++ [entry2] } }

/-- fetch_and_store_stocks (eia.py), analogous: region resolved through
EIA_AREAS, audit entry series_id "distillate_" ++ region, observations
upserted into inventories with product "distillate" and unit
"thousand_barrels". -/
def fetch_and_store_stocks (api_key : Option String) (upstream : Upstream RawStock)
    (row_fails : StockObs → Bool) (db : DB) (area_code : String) (now : Nat) : RunResult :=
  let region := (eia_area_info area_code).2
  let entry : FetchLogRow :=
    { id := nextLogId db.fetch_log, source := "EIA",
      endpoint := some "/petroleum/sum/sndw/data",
      series_id := some ("distillate_" ++ region),
      started_at := now, completed_at := none, status := "in_progress",
      records_fetched := 0, error_message := none }
  let db1 : DB := { db with fetch_log := db.fetch_log ++ [entry] }
  let result := (fetch_distillate_stocks api_key upstream).1
  if result.success then
    let p := gApply row_fails
      (fun o : StockObs => (("EIA" : String), region, ("distillate" : String), o.date))
      (fun o => o.value) (fun _ => ("thousand_barrels" : String)) now
      db1.inventories result.data
    let entry2 := { entry with
      status := "success", records_fetched := p.2, completed_at := some now }
    { outcome := .ok region p.2,
      db_mid := db1,
      db_fin := { db1 with inventories := p.1, fetch_log := db.fetch_log ++ [entry2] } }
  else
    let entry2 := { entry with
      status := "error", error_message := result.error, completed_at := some now }
    { outcome := .err (result.error.getD ""),
      db_mid := db1,
      db_fin := { db1 with fetch_log := db.fetch_log ++ [entry2] } }

/-- Iteration core of fetch_all_series: run fetch_and_store_series for each
series id in turn, threading the database, collecting each result in order.
A failed selector contributes its failure dictionary and the loop continues. -/
def fetch_all_series_aux (api_key : Option String)
    (upstreams : String → Upstream RawObs) (row_fails : Obs → Bool) (now : Nat)
    (db : DB) : List String → List StoreOutcome × DB
  | [] => ([], db)
  | sid :: rest =>
    let r := fetch_and_store_series api_key (upstreams sid) row_fails db sid now
    let p := fetch_all_series_aux api_key upstreams row_fails now r.db_fin rest
    (r.outcome :: p.1, p.2)

/-- fetch_all_series (fred.py): fan out over every series id of FRED_SERIES. -/
def fetch_all_series (api_key : Option String)
    (upstreams : String → Upstream RawObs) (row_fails : Obs → Bool) (db : DB)
    (now : Nat) : List StoreOutcome × DB :=
  fetch_all_series_aux api_key upstreams row_fails now db
    (FRED_SERIES.map (fun e => e.1))

/-- Iteration core of fetch_all_stocks, analogous to fetch_all_series_aux. -/
def fetch_all_stocks_aux (api_key : Option String)
    (upstreams : String → Upstream RawStock) (row_fails : StockObs → Bool)
    (now : Nat) (db : DB) : List String → List StoreOutcome × DB
  | [] => ([], db)
  | area :: rest =>
    let r := fetch_and_store_stocks api_key (upstreams area) row_fails db area now
    let p := fetch_all_stocks_aux api_key upstreams row_fails now r.db_fin rest
    (r.outcome :: p.1, p.2)

/-- fetch_all_stocks (eia.py): fan out over every area code of EIA_AREAS. -/
def fetch_all_stocks (api_key : Option String)
    (upstreams : String → Upstream RawStock) (row_fails : StockObs → Bool)
    (db : DB) (now : Nat) : List StoreOutcome × DB :=
  fetch_all_stocks_aux api_key upstreams row_fails now db
    (EIA_AREAS.map (fun e => e.1))

/-- The aggregate computed by the /fetch/fred/all and /fetch/eia/all routes
(routes/fetch.py): per-selector results list plus success count and total
applied records summed over the successful selectors. -/
structure FanoutSummary where
  succeeded : Nat
  total : Nat
  total_records : Nat
deriving DecidableEq, Repr

/-- success_count and total_records as computed in routes/fetch.py
fetch_all_fred / fetch_all_eia from the per-selector results list. -/
def summarize (results : List StoreOutcome) : FanoutSummary :=
  { succeeded := (results.filter (fun r => r.isOk)).length,
    total := results.length,
    total_records := (results.map (fun r => r.records)).sum }

/-- The /fetch/fred/all route handler fetch_all_fred (routes/fetch.py):
runs the fan-out and returns the aggregate summary together with the
per-selector results. -/
def fetch_all_fred (api_key : Option String)
    (upstreams : String → Upstream RawObs) (row_fails : Obs → Bool) (db : DB)
    (now : Nat) : FanoutSummary × List StoreOutcome × DB :=
  let p := fetch_all_series api_key upstreams row_fails db now
  (summarize p.1, p.1, p.2)

/-- A stored observation row with the fetch timestamp erased: the
observation content (identity, natural key, value, unit) of §3 of the data
model, used to state idempotence modulo the re-stamped fetch time. -/
structure GRowE (κ : Type) where
  id : Nat
  key : κ
  value : Option ℚ
  unit : Option String
deriving DecidableEq, Repr

/-- Erase the fetch timestamp of a stored row. -/
def GRow.erase {κ : Type} (r : GRow κ) : GRowE κ := ⟨r.id, r.key, r.value, r.unit⟩

/-- Erase the fetch timestamps of a whole table. -/
def eraseT {κ : Type} (t : List (GRow κ)) : List (GRowE κ) := t.map GRow.erase

/-- The natural keys stored in a table, in row order. -/
def keysOf {κ : Type} (t : List (GRow κ)) : List κ := t.map (fun r => r.key)

/-- The key-uniqueness invariant backed by the UniqueConstraint declarations
uix_price_series_date and uix_inventory in models.py: no two rows of the
table share a natural key. -/
def UniqueKeys {κ : Type} (t : List (GRow κ)) : Prop := (keysOf t).Nodup

/-- Database states reachable by the ingestion pipeline: the empty state
produced by schema bootstrap, closed under arbitrary invocations of the two
orchestrators. -/
inductive Reachable : DB → Prop where
  | empty : Reachable ⟨[], [], []⟩
  | fred (a : Option String) (u : Upstream RawObs) (rf : Obs → Bool) (db : DB)
      (sid : String) (now : Nat) :
      Reachable db → Reachable (fetch_and_store_series a u rf db sid now).db_fin
  | eia (a : Option String) (u : Upstream RawStock) (rf : StockObs → Bool) (db : DB)
      (area : String) (now : Nat) :
      Reachable db → Reachable (fetch_and_store_stocks a u rf db area now).db_fin

/-- The value written last for key k by the non-skipped observations of a
batch, if any: the value the upsert loop leaves in the row with that key. -/
def lastVal {κ α : Type} [DecidableEq κ] (skip : α → Bool) (keyOf : α → κ)
    (valOf : α → ℚ) (k : κ) : List α → Option ℚ
  | [] => none
  | o :: rest =>
    match lastVal skip keyOf valOf k rest with
    | some v => some v
    | none => if skip o = false ∧ keyOf o = k then some (valOf o) else none

/-- Row transformer describing one whole pass of the upsert loop over a table
that already contains every touched key: the row keeps its identity and
position, its value becomes the batch's last value for its key and its fetch
time is re-stamped; rows whose key the batch does not touch are unchanged. -/
def gUpdate {κ α : Type} [DecidableEq κ] (skip : α → Bool) (keyOf : α → κ)
    (valOf : α → ℚ) (b : List α) (now : Nat) (r : GRow κ) : GRow κ :=
  match lastVal skip keyOf valOf r.key b with
  | some v => { r with value := some v, fetched_at := now }
  | none => r

/-- A FRED point the parse loop silently drops: absent value, empty string,
or the "." missing-value sentinel (the falsy / sentinel guard in
fetch_series). -/
def fred_sentinel (o : RawObs) : Bool :=
  match o.value with
  | none => true
  | some v => v == "" || v == "."

/-- A FRED point whose value reaches float() and fails to parse there. -/
def fred_bad_point (o : RawObs) : Bool :=
  match o.value with
  | none => false
  | some v => !(v == "" || v == ".") && (parseDecimal v).isNone

/-- An EIA point the parse loop silently drops: a null/absent value field. -/
def eia_null (o : RawStock) : Bool := o.value.isNone

/-- An EIA point whose value reaches float() and fails to parse there. -/
def eia_bad_point (o : RawStock) : Bool :=
  match o.value with
  | none => false
  | some v => (parseDecimal v).isNone

/-- The parsed observation fetch_series builds from a well-formed FRED point
(the getD 0 default is never exercised on points that parse). -/
def fred_parsed_point (o : RawObs) : Obs :=
  ⟨o.date, (parseDecimal (o.value.getD "")).getD 0⟩

/-- The parsed observation fetch_distillate_stocks builds from a well-formed
EIA point. -/
def eia_parsed_point (o : RawStock) : StockObs :=
  ⟨o.period, (parseDecimal (o.value.getD "")).getD 0, o.units.getD "thousand barrels"⟩

/-- The per-selector summary fetch_and_store_series produces, as a function
of that selector's own inputs alone (the threaded database does not influence
it, because the applied-records counter counts upsert executions, not
inserts). -/
def selector_outcome_fred (a : Option String) (u : Upstream RawObs)
    (rf : Obs → Bool) (sid : String) : StoreOutcome :=
  let r := (fetch_series a u).1
  if r.success then .ok sid (List.countP (fun o => !rf o) r.data)
  else .err (r.error.getD "")

/-- The per-selector summary fetch_and_store_stocks produces, as a function
of that selector's own inputs alone. -/
def selector_outcome_eia (a : Option String) (u : Upstream RawStock)
    (rf : StockObs → Bool) (area : String) : StoreOutcome :=
  let r := (fetch_distillate_stocks a u).1
  if r.success then .ok (eia_area_info area).2 (List.countP (fun o => !rf o) r.data)
  else .err (r.error.getD "")

/-- The empty database produced by schema bootstrap. -/
def dbEmpty : DB := ⟨[], [], []⟩

/-- A five-point FRED response in which the second point carries the "."
missing-value sentinel (the scenario of §8 of the spec). -/
def exRawsSentinel : List RawObs :=
  [⟨"2024-01-01", some "70.0"⟩, ⟨"2024-01-02", some "."⟩,
   ⟨"2024-01-03", some "71.5"⟩, ⟨"2024-01-04", some "72.0"⟩,
   ⟨"2024-01-05", some "73.1"⟩]

/-- The three-observation price batch with a duplicated date from the
records-count scenario of §8 of the spec. -/
def exRawsDup : List RawObs :=
  [⟨"2024-01-01", some "70.0"⟩, ⟨"2024-01-02", some "71.5"⟩,
   ⟨"2024-01-02", some "71.5"⟩]

/-- A two-point FRED response whose second point has a malformed numeric
value string. -/
def exRawsBad : List RawObs :=
  [⟨"2024-01-01", some "70.0"⟩, ⟨"2024-01-02", some "abc"⟩]

/-- A two-point EIA response whose second point has a malformed numeric
value. -/
def exRawStocksBad : List RawStock :=
  [⟨"2024-01-05", some "45200", some "MBBL"⟩, ⟨"2024-01-12", some "x2", some "MBBL"⟩]

/-- A database already holding one Brent price row whose stored unit differs
from the unit the registry would supply on re-ingestion. -/
def dbStale : DB :=
  ⟨[⟨1, ("FRED", "DCOILBRENTEU", "2024-01-01"), some 70, some "stale-unit", 5⟩], [], []⟩

/-! Generic lemmas about the conflict-aware upsert. -/

lemma any_key_iff {κ : Type} [DecidableEq κ] (t : List (GRow κ)) (k : κ) :
    (t.any fun r => decide (r.key = k)) = true ↔ k ∈ keysOf t := by
  rw [List.any_eq_true]
  constructor
  · rintro ⟨r, hr, hd⟩
    exact List.mem_map.mpr ⟨r, hr, of_decide_eq_true hd⟩
  · rintro hm
    obtain ⟨r, hr, hk⟩ := List.mem_map.mp hm
    exact ⟨r, hr, decide_eq_true hk⟩

lemma gUpsert_present {κ : Type} [DecidableEq κ] {t : List (GRow κ)} {k : κ}
    (v : ℚ) (u : String) (now : Nat) (h : k ∈ keysOf t) :
    gUpsert t k v u now =
      t.map (fun r => if r.key = k then { r with value := some v, fetched_at := now } else r) := by
  unfold gUpsert
  rw [if_pos ((any_key_iff t k).mpr h)]

lemma gUpsert_absent {κ : Type} [DecidableEq κ] {t : List (GRow κ)} {k : κ}
    (v : ℚ) (u : String) (now : Nat) (h : k ∉ keysOf t) :
    gUpsert t k v u now = t ++ [⟨nextId t, k, some v, some u, now⟩] := by
  unfold gUpsert
  rw [if_neg]
  rw [any_key_iff t k]
  exact h

lemma keysOf_gUpsert_present {κ : Type} [DecidableEq κ] {t : List (GRow κ)} {k : κ}
    (v : ℚ) (u : String) (now : Nat) (h : k ∈ keysOf t) :
    keysOf (gUpsert t k v u now) = keysOf t := by
  rw [gUpsert_present v u now h]
  unfold keysOf
  rw [List.map_map]
  refine List.map_congr_left (fun r _ => ?_)
  by_cases hr : r.key = k <;> simp [hr]

lemma keysOf_gUpsert_absent {κ : Type} [DecidableEq κ] {t : List (GRow κ)} {k : κ}
    (v : ℚ) (u : String) (now : Nat) (h : k ∉ keysOf t) :
    keysOf (gUpsert t k v u now) = keysOf t ++ [k] := by
  rw [gUpsert_absent v u now h]
  simp [keysOf]

lemma mem_keysOf_gUpsert {κ : Type} [DecidableEq κ] {t : List (GRow κ)} {k k' : κ}
    (v : ℚ) (u : String) (now : Nat) (h : k' ∈ keysOf t) :
    k' ∈ keysOf (gUpsert t k v u now) := by
  by_cases hk : k ∈ keysOf t
  · rw [keysOf_gUpsert_present v u now hk]; exact h
  · rw [keysOf_gUpsert_absent v u now hk]; exact List.mem_append_left _ h

lemma self_mem_keysOf_gUpsert {κ : Type} [DecidableEq κ] (t : List (GRow κ)) (k : κ)
    (v : ℚ) (u : String) (now : Nat) :
    k ∈ keysOf (gUpsert t k v u now) := by
  by_cases hk : k ∈ keysOf t
  · rw [keysOf_gUpsert_present v u now hk]; exact hk
  · rw [keysOf_gUpsert_absent v u now hk]; simp

lemma uniqueKeys_gUpsert {κ : Type} [DecidableEq κ] {t : List (GRow κ)} (k : κ)
    (v : ℚ) (u : String) (now : Nat) (h : UniqueKeys t) :
    UniqueKeys (gUpsert t k v u now) := by
  by_cases hk : k ∈ keysOf t
  · unfold UniqueKeys
    rw [keysOf_gUpsert_present v u now hk]
    exact h
  · unfold UniqueKeys
    rw [keysOf_gUpsert_absent v u now hk]
    simp [List.nodup_append, h, hk]
    exact h

lemma mem_gUpsert_ne_key {κ : Type} [DecidableEq κ] {t : List (GRow κ)} {k : κ}
    {v : ℚ} {u : String} {now : Nat} {r : GRow κ}
    (hr : r ∈ gUpsert t k v u now) (hne : r.key ≠ k) : r ∈ t := by
  by_cases hk : k ∈ keysOf t
  · rw [gUpsert_present v u now hk] at hr
    obtain ⟨r0, hr0, hmap⟩ := List.mem_map.mp hr
    by_cases h0 : r0.key = k
    · exfalso
      apply hne
      rw [← hmap]
      simp [h0]
    · rw [← hmap]
      simp only [h0, if_false]
      exact hr0
  · rw [gUpsert_absent v u now hk] at hr
    rcases List.mem_append.mp hr with h1 | h1
    · exact h1
    · exfalso
      apply hne
      simp at h1
      rw [h1]

lemma mem_gUpsert_key_val {κ : Type} [DecidableEq κ] {t : List (GRow κ)} {k : κ}
    {v : ℚ} {u : String} {now : Nat} {r : GRow κ}
    (hr : r ∈ gUpsert t k v u now) (hkey : r.key = k) :
    r.value = some v ∧ r.fetched_at = now := by
  by_cases hk : k ∈ keysOf t
  · rw [gUpsert_present v u now hk] at hr
    obtain ⟨r0, hr0, hmap⟩ := List.mem_map.mp hr
    by_cases h0 : r0.key = k
    · rw [← hmap]
      simp [h0]
    · exfalso
      apply h0
      rw [← hkey, ← hmap]
      simp [h0]
  · rw [gUpsert_absent v u now hk] at hr
    rcases List.mem_append.mp hr with h1 | h1
    · exfalso
      apply hk
      rw [← hkey]
      exact List.mem_map.mpr ⟨r, h1, rfl⟩
    · simp at h1
      rw [h1]
      exact ⟨rfl, rfl⟩

section ApplyLemmas

variable {κ α : Type} [DecidableEq κ]
variable (skip : α → Bool) (keyOf : α → κ) (valOf : α → ℚ) (unitOf : α → String)

lemma gApply_nil (now : Nat) (t : List (GRow κ)) :
    gApply skip keyOf valOf unitOf now t [] = (t, 0) := rfl

lemma gApply_cons_skip (now : Nat) (t : List (GRow κ)) (o : α) (b : List α)
    (h : skip o = true) :
    gApply skip keyOf valOf unitOf now t (o :: b) =
      gApply skip keyOf valOf unitOf now t b := by
  simp [gApply, h]

lemma gApply_cons_apply (now : Nat) (t : List (GRow κ)) (o : α) (b : List α)
    (h : skip o = false) :
    gApply skip keyOf valOf unitOf now t (o :: b) =
      ((gApply skip keyOf valOf unitOf now
          (gUpsert t (keyOf o) (valOf o) (unitOf o) now) b).1,
       (gApply skip keyOf valOf unitOf now
          (gUpsert t (keyOf o) (valOf o) (unitOf o) now) b).2 + 1) := by
  simp [gApply, h]

lemma gApply_count (now : Nat) (t : List (GRow κ)) (b : List α) :
    (gApply skip keyOf valOf unitOf now t b).2 = b.countP (fun o => !skip o) := by
  induction b generalizing t with
  | nil => rfl
  | cons o rest ih =>
    cases h : skip o with
    | false =>
      rw [gApply_cons_apply skip keyOf valOf unitOf now t o rest h]
      simp [List.countP_cons, h, ih]
    | true =>
      rw [gApply_cons_skip skip keyOf valOf unitOf now t o rest h]
      simp [List.countP_cons, h, ih]

lemma mem_keysOf_gApply_mono (now : Nat) (t : List (GRow κ)) (b : List α) (k' : κ)
    (h : k' ∈ keysOf t) : k' ∈ keysOf (gApply skip keyOf valOf unitOf now t b).1 := by
  induction b generalizing t with
  | nil => exact h
  | cons o rest ih =>
    cases hs : skip o with
    | false =>
      rw [gApply_cons_apply skip keyOf valOf unitOf now t o rest hs]
      exact ih _ (mem_keysOf_gUpsert _ _ _ h)
    | true =>
      rw [gApply_cons_skip skip keyOf valOf unitOf now t o rest hs]
      exact ih _ h

lemma keys_present_gApply (now : Nat) (t : List (GRow κ)) (b : List α) :
    ∀ o ∈ b, skip o = false →
      keyOf o ∈ keysOf (gApply skip keyOf valOf unitOf now t b).1 := by
  induction b generalizing t with
  | nil => intro o ho; exact absurd ho (List.not_mem_nil o)
  | cons o rest ih =>
    intro o2 ho2 hs2
    rcases List.mem_cons.mp ho2 with rfl | hmem
    · cases hs : skip o2 with
      | false =>
        rw [gApply_cons_apply skip keyOf valOf unitOf now t o2 rest hs]
        exact mem_keysOf_gApply_mono skip keyOf valOf unitOf now _ rest _
          (self_mem_keysOf_gUpsert t (keyOf o2) (valOf o2) (unitOf o2) now)
      | true => rw [hs] at hs2; cases hs2
    · cases hs : skip o with
      | false =>
        rw [gApply_cons_apply skip keyOf valOf unitOf now t o rest hs]
        exact ih _ o2 hmem hs2
      | true =>
        rw [gApply_cons_skip skip keyOf valOf unitOf now t o rest hs]
        exact ih _ o2 hmem hs2

lemma uniqueKeys_gApply (now : Nat) (t : List (GRow κ)) (b : List α)
    (h : UniqueKeys t) : UniqueKeys (gApply skip keyOf valOf unitOf now t b).1 := by
  induction b generalizing t with
  | nil => exact h
  | cons o rest ih =>
    cases hs : skip o with
    | false =>
      rw [gApply_cons_apply skip keyOf valOf unitOf now t o rest hs]
      exact ih _ (uniqueKeys_gUpsert _ _ _ _ h)
    | true =>
      rw [gApply_cons_skip skip keyOf valOf unitOf now t o rest hs]
      exact ih _ h

lemma lastVal_cons_of_some (k : κ) (o : α) (b : List α) (v : ℚ)
    (hl : lastVal skip keyOf valOf k b = some v) :
    lastVal skip keyOf valOf k (o :: b) = some v := by
  simp [lastVal, hl]

lemma lastVal_cons_skip (k : κ) (o : α) (b : List α) (h : skip o = true) :
    lastVal skip keyOf valOf k (o :: b) = lastVal skip keyOf valOf k b := by
  cases hl : lastVal skip keyOf valOf k b <;> simp [lastVal, hl, h]

lemma lastVal_cons_ne (k : κ) (o : α) (b : List α) (h : keyOf o ≠ k) :
    lastVal skip keyOf valOf k (o :: b) = lastVal skip keyOf valOf k b := by
  cases hl : lastVal skip keyOf valOf k b <;> simp [lastVal, hl, h]

lemma lastVal_cons_key (k : κ) (o : α) (b : List α) (hs : skip o = false)
    (hk : keyOf o = k) (hl : lastVal skip keyOf valOf k b = none) :
    lastVal skip keyOf valOf k (o :: b) = some (valOf o) := by
  simp [lastVal, hl, hs, hk]

lemma gUpdate_nil (now : Nat) (r : GRow κ) :
    gUpdate skip keyOf valOf [] now r = r := by
  simp [gUpdate, lastVal]

lemma gUpdate_cons_skip (o : α) (b : List α) (now : Nat) (r : GRow κ)
    (h : skip o = true) :
    gUpdate skip keyOf valOf (o :: b) now r = gUpdate skip keyOf valOf b now r := by
  unfold gUpdate
  rw [lastVal_cons_skip skip keyOf valOf r.key o b h]

lemma gApply_all_present (now : Nat) (t : List (GRow κ)) (b : List α)
    (h : ∀ o ∈ b, skip o = false → keyOf o ∈ keysOf t) :
    (gApply skip keyOf valOf unitOf now t b).1 =
      t.map (gUpdate skip keyOf valOf b now) := by
  induction b generalizing t with
  | nil =>
    rw [gApply_nil]
    rw [List.map_congr_left (fun r _ => (gUpdate_nil skip keyOf valOf now r : _))]
    exact (List.map_id t).symm
  | cons o rest ih =>
    cases hs : skip o with
    | true =>
      rw [gApply_cons_skip skip keyOf valOf unitOf now t o rest hs,
        ih t (fun o2 h2 hsk => h o2 (List.mem_cons_of_mem _ h2) hsk)]
      exact List.map_congr_left
        (fun r _ => (gUpdate_cons_skip skip keyOf valOf o rest now r hs).symm)
    | false =>
      rw [gApply_cons_apply skip keyOf valOf unitOf now t o rest hs]
      have hk0 : keyOf o ∈ keysOf t := h o (List.mem_cons_self o rest) hs
      have hrest : ∀ o2 ∈ rest, skip o2 = false →
          keyOf o2 ∈ keysOf (gUpsert t (keyOf o) (valOf o) (unitOf o) now) :=
        fun o2 h2 hsk =>
          mem_keysOf_gUpsert _ _ _ (h o2 (List.mem_cons_of_mem _ h2) hsk)
      show (gApply skip keyOf valOf unitOf now
          (gUpsert t (keyOf o) (valOf o) (unitOf o) now) rest).1 = _
      rw [ih _ hrest, gUpsert_present (valOf o) (unitOf o) now hk0, List.map_map]
      refine List.map_congr_left (fun r _ => ?_)
      show gUpdate skip keyOf valOf rest now
          (if r.key = keyOf o then { r with value := some (valOf o), fetched_at := now }
           else r) = gUpdate skip keyOf valOf (o :: rest) now r
      by_cases hr : r.key = keyOf o
      · rw [if_pos hr]
        cases hl : lastVal skip keyOf valOf r.key rest with
        | some v =>
          have hc := lastVal_cons_of_some skip keyOf valOf r.key o rest v hl
          simp [gUpdate, hl, hc]
        | none =>
          have hc := lastVal_cons_key skip keyOf valOf r.key o rest hs hr.symm hl
          simp [gUpdate, hl, hc]
      · rw [if_neg hr]
        unfold gUpdate
        rw [lastVal_cons_ne skip keyOf valOf r.key o rest (fun hh => hr hh.symm)]

lemma gApply_untouched (now : Nat) (t : List (GRow κ)) (b : List α) (k : κ)
    (hk : lastVal skip keyOf valOf k b = none) :
    ∀ r ∈ (gApply skip keyOf valOf unitOf now t b).1, r.key = k → r ∈ t := by
  induction b generalizing t with
  | nil => intro r hr _; exact hr
  | cons o rest ih =>
    have hrest : lastVal skip keyOf valOf k rest = none := by
      cases hl : lastVal skip keyOf valOf k rest with
      | none => rfl
      | some v =>
        rw [lastVal_cons_of_some skip keyOf valOf k o rest v hl] at hk
        cases hk
    intro r hr hkey
    cases hs : skip o with
    | true =>
      rw [gApply_cons_skip skip keyOf valOf unitOf now t o rest hs] at hr
      exact ih _ hrest r hr hkey
    | false =>
      have hne : keyOf o ≠ k := by
        intro he
        rw [lastVal_cons_key skip keyOf valOf k o rest hs he hrest] at hk
        cases hk
      rw [gApply_cons_apply skip keyOf valOf unitOf now t o rest hs] at hr
      exact mem_gUpsert_ne_key (ih _ hrest r hr hkey)
        (fun h2 => hne (h2.symm.trans hkey))

lemma gApply_lastVal (now : Nat) (t : List (GRow κ)) (b : List α) (k : κ) (v : ℚ)
    (hv : lastVal skip keyOf valOf k b = some v) :
    ∀ r ∈ (gApply skip keyOf valOf unitOf now t b).1, r.key = k →
      r.value = some v ∧ r.fetched_at = now := by
  induction b generalizing t with
  | nil => simp [lastVal] at hv
  | cons o rest ih =>
    intro r hr hkey
    cases hl : lastVal skip keyOf valOf k rest with
    | some v2 =>
      have hvv : v2 = v := by
        rw [lastVal_cons_of_some skip keyOf valOf k o rest v2 hl] at hv
        injection hv
      subst hvv
      cases hs : skip o with
      | true =>
        rw [gApply_cons_skip skip keyOf valOf unitOf now t o rest hs] at hr
        exact ih _ hl r hr hkey
      | false =>
        rw [gApply_cons_apply skip keyOf valOf unitOf now t o rest hs] at hr
        exact ih _ hl r hr hkey
    | none =>
      have h3 : skip o = false ∧ keyOf o = k ∧ valOf o = v := by
        rw [show lastVal skip keyOf valOf k (o :: rest)
            = if skip o = false ∧ keyOf o = k then some (valOf o) else none from by
          simp [lastVal, hl]] at hv
        by_cases hc : skip o = false ∧ keyOf o = k
        · rw [if_pos hc] at hv
          exact ⟨hc.1, hc.2, by injection hv⟩
        · rw [if_neg hc] at hv
          cases hv
      obtain ⟨hs, hko, hvo⟩ := h3
      rw [gApply_cons_apply skip keyOf valOf unitOf now t o rest hs] at hr
      have hmem : r ∈ gUpsert t (keyOf o) (valOf o) (unitOf o) now :=
        gApply_untouched skip keyOf valOf unitOf now _ rest k hl r hr hkey
      have h4 := mem_gUpsert_key_val hmem (hkey.trans hko.symm)
      rw [hvo] at h4
      exact h4

lemma gApply_twice (n1 n2 : Nat) (t : List (GRow κ)) (b : List α) :
    eraseT (gApply skip keyOf valOf unitOf n2
        (gApply skip keyOf valOf unitOf n1 t b).1 b).1
      = eraseT (gApply skip keyOf valOf unitOf n1 t b).1 ∧
    (gApply skip keyOf valOf unitOf n2
        (gApply skip keyOf valOf unitOf n1 t b).1 b).2
      = (gApply skip keyOf valOf unitOf n1 t b).2 ∧
    (n2 = n1 → (gApply skip keyOf valOf unitOf n2
        (gApply skip keyOf valOf unitOf n1 t b).1 b).1
      = (gApply skip keyOf valOf unitOf n1 t b).1) := by
  have hpres : ∀ o ∈ b, skip o = false →
      keyOf o ∈ keysOf (gApply skip keyOf valOf unitOf n1 t b).1 :=
    keys_present_gApply skip keyOf valOf unitOf n1 t b
  have hFM := gApply_all_present skip keyOf valOf unitOf n2
    (gApply skip keyOf valOf unitOf n1 t b).1 b hpres
  refine ⟨?_, ?_, ?_⟩
  · rw [hFM]
    unfold eraseT
    rw [List.map_map]
    refine List.map_congr_left (fun r hr => ?_)
    show GRow.erase (gUpdate skip keyOf valOf b n2 r) = GRow.erase r
    cases hl : lastVal skip keyOf valOf r.key b with
    | none => simp [gUpdate, hl]
    | some v =>
      have h2 := gApply_lastVal skip keyOf valOf unitOf n1 t b r.key v hl r hr rfl
      simp [gUpdate, hl, GRow.erase, h2.1]
  · rw [gApply_count, gApply_count]
  · intro he
    subst he
    rw [hFM]
    have hid : ∀ r ∈ (gApply skip keyOf valOf unitOf n2 t b).1,
        gUpdate skip keyOf valOf b n2 r = id r := by
      intro r hr
      cases hl : lastVal skip keyOf valOf r.key b with
      | none => simp [gUpdate, hl]
      | some v =>
        have h2 := gApply_lastVal skip keyOf valOf unitOf n2 t b r.key v hl r hr rfl
        simp only [gUpdate, hl, id]
        rw [← h2.1, ← h2.2]
    rw [List.map_congr_left hid, List.map_id]

end ApplyLemmas

/-! Helper lemmas characterizing the two fetchers and orchestrators. -/

lemma fetch_series_error_some (a : Option String) (u : Upstream RawObs)
    (h : (fetch_series a u).1.success = false) :
    ∃ m, (fetch_series a u).1.error = some m := by
  cases a with
  | none => exact ⟨_, rfl⟩
  | some k =>
    cases u with
    | ok rows =>
      cases hp : parse_observations_fred rows <;>
        simp [fetch_series, hp] at h ⊢
    | httpError s m => exact ⟨_, rfl⟩
    | exn m => exact ⟨_, rfl⟩

lemma fetch_stocks_error_some (a : Option String) (u : Upstream RawStock)
    (h : (fetch_distillate_stocks a u).1.success = false) :
    ∃ m, (fetch_distillate_stocks a u).1.error = some m := by
  cases a with
  | none => exact ⟨_, rfl⟩
  | some k =>
    cases u with
    | ok rows =>
      cases hp : parse_observations_eia rows <;>
        simp [fetch_distillate_stocks, hp] at h ⊢
    | httpError s m => exact ⟨_, rfl⟩
    | exn m => exact ⟨_, rfl⟩

lemma fas_series_mid (a : Option String) (u : Upstream RawObs) (rf : Obs → Bool)
    (db : DB) (sid : String) (now : Nat) :
    (fetch_and_store_series a u rf db sid now).db_mid =
      { db with fetch_log := db.fetch_log ++
        [⟨nextLogId db.fetch_log, "FRED", some "/series/observations", some sid,
          now, none, "in_progress", 0, none⟩] } := by
  simp only [fetch_and_store_series]
  split <;> rfl

lemma fas_series_fin_success (a : Option String) (u : Upstream RawObs)
    (rf : Obs → Bool) (db : DB) (sid : String) (now : Nat)
    (h : (fetch_series a u).1.success = true) :
    fetch_and_store_series a u rf db sid now =
      { outcome := .ok sid (gApply rf (fun o : Obs => (("FRED" : String), sid, o.date))
          (fun o => o.value) (fun _ => fred_unit sid) now db.prices
          (fetch_series a u).1.data).2,
        db_mid := { db with fetch_log := db.fetch_log ++
          [⟨nextLogId db.fetch_log, "FRED", some "/series/observations", some sid,
            now, none, "in_progress", 0, none⟩] },
        db_fin :=
          { prices := (gApply rf (fun o : Obs => (("FRED" : String), sid, o.date))
              (fun o => o.value) (fun _ => fred_unit sid) now db.prices
              (fetch_series a u).1.data).1,
            inventories := db.inventories,
            fetch_log := db.fetch_log ++
              [⟨nextLogId db.fetch_log, "FRED", some "/series/observations", some sid,
                now, some now, "success",
                (gApply rf (fun o : Obs => (("FRED" : String), sid, o.date))
                  (fun o => o.value) (fun _ => fred_unit sid) now db.prices
                  (fetch_series a u).1.data).2, none⟩] } } := by
  simp only [fetch_and_store_series, h, if_true]

lemma fas_series_fin_error (a : Option String) (u : Upstream RawObs)
    (rf : Obs → Bool) (db : DB) (sid : String) (now : Nat)
    (h : (fetch_series a u).1.success = false) :
    fetch_and_store_series a u rf db sid now =
      { outcome := .err ((fetch_series a u).1.error.getD ""),
        db_mid := { db with fetch_log := db.fetch_log ++
          [⟨nextLogId db.fetch_log, "FRED", some "/series/observations", some sid,
            now, none, "in_progress", 0, none⟩] },
        db_fin := { db with fetch_log := db.fetch_log ++
          [⟨nextLogId db.fetch_log, "FRED", some "/series/observations", some sid,
            now, some now, "error", 0, (fetch_series a u).1.error⟩] } } := by
  simp only [fetch_and_store_series, h, Bool.false_eq_true, if_false]

lemma fas_stocks_mid (a : Option String) (u : Upstream RawStock)
    (rf : StockObs → Bool) (db : DB) (area : String) (now : Nat) :
    (fetch_and_store_stocks a u rf db area now).db_mid =
      { db with fetch_log := db.fetch_log ++
        [⟨nextLogId db.fetch_log, "EIA", some "/petroleum/sum/sndw/data",
          some ("distillate_" ++ (eia_area_info area).2),
          now, none, "in_progress", 0, none⟩] } := by
  simp only [fetch_and_store_stocks]
  split <;> rfl

lemma fas_stocks_fin_success (a : Option String) (u : Upstream RawStock)
    (rf : StockObs → Bool) (db : DB) (area : String) (now : Nat)
    (h : (fetch_distillate_stocks a u).1.success = true) :
    fetch_and_store_stocks a u rf db area now =
      { outcome := .ok (eia_area_info area).2
          (gApply rf (fun o : StockObs =>
              (("EIA" : String), (eia_area_info area).2, ("distillate" : String), o.date))
            (fun o => o.value) (fun _ => ("thousand_barrels" : String)) now
            db.inventories (fetch_distillate_stocks a u).1.data).2,
        db_mid := { db with fetch_log := db.fetch_log ++
          [⟨nextLogId db.fetch_log, "EIA", some "/petroleum/sum/sndw/data",
            some ("distillate_" ++ (eia_area_info area).2),
            now, none, "in_progress", 0, none⟩] },
        db_fin :=
          { prices := db.prices,
            inventories := (gApply rf (fun o : StockObs =>
                (("EIA" : String), (eia_area_info area).2, ("distillate" : String), o.date))
              (fun o => o.value) (fun _ => ("thousand_barrels" : String)) now
              db.inventories (fetch_distillate_stocks a u).1.data).1,
            fetch_log := db.fetch_log ++
              [⟨nextLogId db.fetch_log, "EIA", some "/petroleum/sum/sndw/data",
                some ("distillate_" ++ (eia_area_info area).2),
                now, some now, "success",
                (gApply rf (fun o : StockObs =>
                    (("EIA" : String), (eia_area_info area).2, ("distillate" : String), o.date))
                  (fun o => o.value) (fun _ => ("thousand_barrels" : String)) now
                  db.inventories (fetch_distillate_stocks a u).1.data).2, none⟩] } } := by
  simp only [fetch_and_store_stocks, h, if_true]

lemma fas_stocks_fin_error (a : Option String) (u : Upstream RawStock)
    (rf : StockObs → Bool) (db : DB) (area : String) (now : Nat)
    (h : (fetch_distillate_stocks a u).1.success = false) :
    fetch_and_store_stocks a u rf db area now =
      { outcome := .err ((fetch_distillate_stocks a u).1.error.getD ""),
        db_mid := { db with fetch_log := db.fetch_log ++
          [⟨nextLogId db.fetch_log, "EIA", some "/petroleum/sum/sndw/data",
            some ("distillate_" ++ (eia_area_info area).2),
            now, none, "in_progress", 0, none⟩] },
        db_fin := { db with fetch_log := db.fetch_log ++
          [⟨nextLogId db.fetch_log, "EIA", some "/petroleum/sum/sndw/data",
            some ("distillate_" ++ (eia_area_info area).2),
            now, some now, "error", 0, (fetch_distillate_stocks a u).1.error⟩] } } := by
  simp only [fetch_and_store_stocks, h, Bool.false_eq_true, if_false]

/-- C6: with no API key configured, each adapter's fetch returns the
configuration-error result having made zero network calls, and the
ingestion's audit entry ends in status "error" with the missing-credential
message. -/
theorem missing_key_no_network_call (u1 : Upstream RawObs) (u2 : Upstream RawStock)
    (rf1 : Obs → Bool) (rf2 : StockObs → Bool) (db1 db2 : DB) (sid area : String)
    (n1 n2 : Nat) :
    (fetch_series none u1).2 = 0 ∧
    (fetch_series none u1).1.success = false ∧
    (fetch_series none u1).1.error = some "No FRED API key configured" ∧
    (∃ e, (fetch_and_store_series none u1 rf1 db1 sid n1).db_fin.fetch_log
        = db1.fetch_log ++ [e] ∧ e.status = "error" ∧
        e.error_message = some "No FRED API key configured") ∧
    (fetch_distillate_stocks none u2).2 = 0 ∧
    (fetch_distillate_stocks none u2).1.success = false ∧
    (fetch_distillate_stocks none u2).1.error = some "No EIA API key configured" ∧
    (∃ e, (fetch_and_store_stocks none u2 rf2 db2 area n2).db_fin.fetch_log
        = db2.fetch_log ++ [e] ∧ e.status = "error" ∧
        e.error_message = some "No EIA API key configured") := by
  refine ⟨rfl, rfl, rfl, ?_, rfl, rfl, rfl, ?_⟩
  · rw [fas_series_fin_error none u1 rf1 db1 sid n1 rfl]
    exact ⟨_, rfl, rfl, rfl⟩
  · rw [fas_stocks_fin_error none u2 rf2 db2 area n2 rfl]
    exact ⟨_, rfl, rfl, rfl⟩

/-- C7: every invocation of either orchestrator creates exactly one audit
entry, committed in status in_progress before the network call, and that
same entry (same id) is in a terminal status (success or error) with its
completion timestamp set in the state the invocation returns; no entry is
left in_progress. -/
theorem audit_entry_lifecycle (a1 a2 : Option String) (u1 : Upstream RawObs)
    (u2 : Upstream RawStock) (rf1 : Obs → Bool) (rf2 : StockObs → Bool)
    (db1 db2 : DB) (sid area : String) (n1 n2 : Nat) :
    (∃ e e2,
      (fetch_and_store_series a1 u1 rf1 db1 sid n1).db_mid.fetch_log
          = db1.fetch_log ++ [e] ∧
      e.status = "in_progress" ∧ e.completed_at = none ∧
      (fetch_and_store_series a1 u1 rf1 db1 sid n1).db_fin.fetch_log
          = db1.fetch_log ++ [e2] ∧
      e2.id = e.id ∧ (e2.status = "success" ∨ e2.status = "error") ∧
      e2.completed_at = some n1) ∧
    (∃ e e2,
      (fetch_and_store_stocks a2 u2 rf2 db2 area n2).db_mid.fetch_log
          = db2.fetch_log ++ [e] ∧
      e.status = "in_progress" ∧ e.completed_at = none ∧
      (fetch_and_store_stocks a2 u2 rf2 db2 area n2).db_fin.fetch_log
          = db2.fetch_log ++ [e2] ∧
      e2.id = e.id ∧ (e2.status = "success" ∨ e2.status = "error") ∧
      e2.completed_at = some n2) := by
  constructor
  · cases h : (fetch_series a1 u1).1.success
    · rw [fas_series_fin_error a1 u1 rf1 db1 sid n1 h]
      exact ⟨_, _, rfl, rfl, rfl, rfl, rfl, Or.inr rfl, rfl⟩
    · rw [fas_series_fin_success a1 u1 rf1 db1 sid n1 h]
      exact ⟨_, _, rfl, rfl, rfl, rfl, rfl, Or.inl rfl, rfl⟩
  · cases h : (fetch_distillate_stocks a2 u2).1.success
    · rw [fas_stocks_fin_error a2 u2 rf2 db2 area n2 h]
      exact ⟨_, _, rfl, rfl, rfl, rfl, rfl, Or.inr rfl, rfl⟩
    · rw [fas_stocks_fin_success a2 u2 rf2 db2 area n2 h]
      exact ⟨_, _, rfl, rfl, rfl, rfl, rfl, Or.inl rfl, rfl⟩

/-- C10: when the adapter fetch fails, the orchestrator returns the failure
without touching either observation table, and the error audit entry keeps
records_fetched at its column default 0 with a non-null error message. -/
theorem failed_fetch_no_rows (a1 a2 : Option String) (u1 : Upstream RawObs)
    (u2 : Upstream RawStock) (rf1 : Obs → Bool) (rf2 : StockObs → Bool)
    (db1 db2 : DB) (sid area : String) (n1 n2 : Nat)
    (h1 : (fetch_series a1 u1).1.success = false)
    (h2 : (fetch_distillate_stocks a2 u2).1.success = false) :
    ((fetch_and_store_series a1 u1 rf1 db1 sid n1).outcome.isOk = false ∧
     (fetch_and_store_series a1 u1 rf1 db1 sid n1).db_fin.prices = db1.prices ∧
     (fetch_and_store_series a1 u1 rf1 db1 sid n1).db_fin.inventories = db1.inventories ∧
     (∃ e m, (fetch_and_store_series a1 u1 rf1 db1 sid n1).db_fin.fetch_log
         = db1.fetch_log ++ [e] ∧ e.status = "error" ∧ e.records_fetched = 0 ∧
         e.error_message = some m)) ∧
    ((fetch_and_store_stocks a2 u2 rf2 db2 area n2).outcome.isOk = false ∧
     (fetch_and_store_stocks a2 u2 rf2 db2 area n2).db_fin.prices = db2.prices ∧
     (fetch_and_store_stocks a2 u2 rf2 db2 area n2).db_fin.inventories = db2.inventories ∧
     (∃ e m, (fetch_and_store_stocks a2 u2 rf2 db2 area n2).db_fin.fetch_log
         = db2.fetch_log ++ [e] ∧ e.status = "error" ∧ e.records_fetched = 0 ∧
         e.error_message = some m)) := by
  obtain ⟨m1, hm1⟩ := fetch_series_error_some a1 u1 h1
  obtain ⟨m2, hm2⟩ := fetch_stocks_error_some a2 u2 h2
  rw [fas_series_fin_error a1 u1 rf1 db1 sid n1 h1,
    fas_stocks_fin_error a2 u2 rf2 db2 area n2 h2]
  exact ⟨⟨rfl, rfl, rfl, ⟨_, m1, rfl, rfl, rfl, hm1⟩⟩,
    ⟨rfl, rfl, rfl, ⟨_, m2, rfl, rfl, rfl, hm2⟩⟩⟩

lemma countP_not_add {α : Type} (l : List α) (p : α → Bool) :
    l.countP (fun a => !p a) + l.countP p = l.length := by
  induction l with
  | nil => rfl
  | cons a l ih => cases h : p a <;> simp [List.countP_cons, h, ← ih] <;> omega

lemma parse_fred_ok (rows : List RawObs)
    (h : ∀ o ∈ rows, fred_bad_point o = false) :
    parse_observations_fred rows =
      .ok ((rows.filter (fun o => !fred_sentinel o)).map fred_parsed_point) := by
  induction rows with
  | nil => rfl
  | cons o rest ih =>
    have hrest := ih (fun o2 h2 => h o2 (List.mem_cons_of_mem _ h2))
    have ho := h o (List.mem_cons_self o rest)
    cases hv : o.value with
    | none =>
      simp [parse_observations_fred, hv, hrest, fred_sentinel, List.filter_cons]
    | some v =>
      by_cases hsv : v = "" ∨ v = "."
      · have hsent : fred_sentinel o = true := by
          rcases hsv with h1 | h1 <;> simp [fred_sentinel, hv, h1]
        simp [parse_observations_fred, hv, hsv, hrest, hsent, List.filter_cons]
      · rw [not_or] at hsv
        have hsent : fred_sentinel o = false := by
          simp [fred_sentinel, hv, hsv.1, hsv.2]
        obtain ⟨q, hq⟩ : ∃ q, parseDecimal v = some q := by
          cases hp : parseDecimal v with
          | none =>
            exfalso
            simp only [fred_bad_point, hv, hp] at ho
            simp [hsv.1, hsv.2] at ho
          | some q => exact ⟨q, rfl⟩
        have hor : ¬(v = "" ∨ v = ".") := not_or.mpr hsv
        simp [parse_observations_fred, hv, hor, hq, hrest, hsent, List.filter_cons,
          fred_parsed_point, Except.map]

lemma parse_fred_error (rows : List RawObs)
    (h : ∃ o ∈ rows, fred_bad_point o = true) :
    ∃ m, parse_observations_fred rows = .error m := by
  induction rows with
  | nil =>
    obtain ⟨o, ho, _⟩ := h
    exact absurd ho (List.not_mem_nil o)
  | cons o rest ih =>
    obtain ⟨o2, ho2, hbad⟩ := h
    rcases List.mem_cons.mp ho2 with rfl | hmem
    · cases hv : o2.value with
      | none => simp only [fred_bad_point, hv] at hbad; cases hbad
      | some v =>
        simp only [fred_bad_point, hv, Bool.and_eq_true] at hbad
        have hne : ¬(v = "" ∨ v = ".") := by
          intro hc
          rcases hc with h1 | h1 <;> rw [h1] at hbad <;> simp at hbad
        cases hp : parseDecimal v with
        | none =>
          refine ⟨"could not convert string to float: " ++ v, ?_⟩
          simp [parse_observations_fred, hv, hne, hp]
        | some q => rw [hp] at hbad; simp [Option.isNone] at hbad
    · obtain ⟨m, hm⟩ := ih ⟨o2, hmem, hbad⟩
      cases hv : o.value with
      | none => exact ⟨m, by simp [parse_observations_fred, hv, hm]⟩
      | some v =>
        by_cases hsv : v = "" ∨ v = "."
        · exact ⟨m, by simp [parse_observations_fred, hv, hsv, hm]⟩
        · cases hp : parseDecimal v with
          | none =>
            refine ⟨"could not convert string to float: " ++ v, ?_⟩
            simp [parse_observations_fred, hv, hsv, hp]
          | some q =>
            exact ⟨m, by simp [parse_observations_fred, hv, hsv, hp, hm, Except.map]⟩

lemma parse_eia_ok (rows : List RawStock)
    (h : ∀ o ∈ rows, eia_bad_point o = false) :
    parse_observations_eia rows =
      .ok ((rows.filter (fun o => !eia_null o)).map eia_parsed_point) := by
  induction rows with
  | nil => rfl
  | cons o rest ih =>
    have hrest := ih (fun o2 h2 => h o2 (List.mem_cons_of_mem _ h2))
    have ho := h o (List.mem_cons_self o rest)
    cases hv : o.value with
    | none =>
      simp [parse_observations_eia, hv, hrest, eia_null, List.filter_cons]
    | some v =>
      obtain ⟨q, hq⟩ : ∃ q, parseDecimal v = some q := by
        cases hp : parseDecimal v with
        | none =>
          exfalso
          simp only [eia_bad_point, hv, hp] at ho
          simp at ho
        | some q => exact ⟨q, rfl⟩
      simp [parse_observations_eia, hv, hq, hrest, eia_null, List.filter_cons,
        eia_parsed_point, Except.map]

lemma parse_eia_error (rows : List RawStock)
    (h : ∃ o ∈ rows, eia_bad_point o = true) :
    ∃ m, parse_observations_eia rows = .error m := by
  induction rows with
  | nil =>
    obtain ⟨o, ho, _⟩ := h
    exact absurd ho (List.not_mem_nil o)
  | cons o rest ih =>
    obtain ⟨o2, ho2, hbad⟩ := h
    rcases List.mem_cons.mp ho2 with rfl | hmem
    · cases hv : o2.value with
      | none => simp only [eia_bad_point, hv] at hbad; cases hbad
      | some v =>
        simp only [eia_bad_point, hv] at hbad
        cases hp : parseDecimal v with
        | none =>
          refine ⟨"could not convert string to float: " ++ v, ?_⟩
          simp [parse_observations_eia, hv, hp]
        | some q => rw [hp] at hbad; simp [Option.isNone] at hbad
    · obtain ⟨m, hm⟩ := ih ⟨o2, hmem, hbad⟩
      cases hv : o.value with
      | none => exact ⟨m, by simp [parse_observations_eia, hv, hm]⟩
      | some v =>
        cases hp : parseDecimal v with
        | none =>
          refine ⟨"could not convert string to float: " ++ v, ?_⟩
          simp [parse_observations_eia, hv, hp]
        | some q =>
          exact ⟨m, by simp [parse_observations_eia, hv, hp, hm, Except.map]⟩

/-- C4 counterexample: a two-point FRED response whose second value is the
malformed string "abc" makes the whole request fail (success false, no data),
and likewise for EIA, where the claim says the adapter should have returned
success with the one well-formed point. -/
theorem malformed_value_aborts_counterexample :
    (∃ o ∈ exRawsBad, fred_bad_point o = true) ∧ exRawsBad.length = 2 ∧
    (fetch_series (some "k") (.ok exRawsBad)).1.success = false ∧
    (fetch_series (some "k") (.ok exRawsBad)).1.data = [] ∧
    (∃ o ∈ exRawStocksBad, eia_bad_point o = true) ∧ exRawStocksBad.length = 2 ∧
    (fetch_distillate_stocks (some "k") (.ok exRawStocksBad)).1.success = false ∧
    (fetch_distillate_stocks (some "k") (.ok exRawStocksBad)).1.data = [] := by
  decide

/-- C4 amended: a malformed numeric value string anywhere in the response
turns the fetch into a whole-request failure (success false, empty data, an
error message): the per-point parse failure is not skipped but aborts the
batch, in both adapters. -/
theorem malformed_value_whole_request_failure (k1 k2 : String)
    (rows1 : List RawObs) (rows2 : List RawStock)
    (h1 : ∃ o ∈ rows1, fred_bad_point o = true)
    (h2 : ∃ o ∈ rows2, eia_bad_point o = true) :
    (fetch_series (some k1) (.ok rows1)).1.success = false ∧
    (fetch_series (some k1) (.ok rows1)).1.data = [] ∧
    (∃ m, (fetch_series (some k1) (.ok rows1)).1.error = some m) ∧
    (fetch_distillate_stocks (some k2) (.ok rows2)).1.success = false ∧
    (fetch_distillate_stocks (some k2) (.ok rows2)).1.data = [] ∧
    (∃ m, (fetch_distillate_stocks (some k2) (.ok rows2)).1.error = some m) := by
  obtain ⟨m1, hm1⟩ := parse_fred_error rows1 h1
  obtain ⟨m2, hm2⟩ := parse_eia_error rows2 h2
  simp [fetch_series, fetch_distillate_stocks, hm1, hm2]

/-- Closed witness for malformed_value_whole_request_failure at the concrete
two-point responses. -/
theorem malformed_value_whole_request_failure_witness :
    (∃ o ∈ exRawsBad, fred_bad_point o = true) ∧
    (∃ o ∈ exRawStocksBad, eia_bad_point o = true) ∧
    (fetch_series (some "k") (.ok exRawsBad)).1.success = false :=
  ⟨by decide, by decide,
    (malformed_value_whole_request_failure "k" "k" exRawsBad exRawStocksBad
      (by decide) (by decide)).1⟩

/-- C5: points carrying the provider's missing-value encoding (absent, empty
or "." for FRED; null for EIA) are dropped by the adapters: the returned data
is exactly the parsed non-sentinel points and the reported count is N minus
the number of sentinel points; in the concrete five-point response with one
"." sentinel, exactly 4 rows are persisted and the audit entry reports 4. -/
theorem sentinel_points_dropped (k1 k2 : String) (rows1 : List RawObs)
    (rows2 : List RawStock)
    (h1 : ∀ o ∈ rows1, fred_bad_point o = false)
    (h2 : ∀ o ∈ rows2, eia_bad_point o = false) :
    ((fetch_series (some k1) (.ok rows1)).1.success = true ∧
     (fetch_series (some k1) (.ok rows1)).1.data =
       (rows1.filter (fun o => !fred_sentinel o)).map fred_parsed_point ∧
     (fetch_series (some k1) (.ok rows1)).1.count + rows1.countP fred_sentinel
       = rows1.length) ∧
    ((fetch_distillate_stocks (some k2) (.ok rows2)).1.success = true ∧
     (fetch_distillate_stocks (some k2) (.ok rows2)).1.data =
       (rows2.filter (fun o => !eia_null o)).map eia_parsed_point ∧
     (fetch_distillate_stocks (some k2) (.ok rows2)).1.count + rows2.countP eia_null
       = rows2.length) ∧
    ((fetch_and_store_series (some "k") (.ok exRawsSentinel) (fun _ => false)
        dbEmpty "DCOILBRENTEU" 7).db_fin.prices.length = 4 ∧
     ∃ e, (fetch_and_store_series (some "k") (.ok exRawsSentinel) (fun _ => false)
        dbEmpty "DCOILBRENTEU" 7).db_fin.fetch_log = [e] ∧
       e.status = "success" ∧ e.records_fetched = 4) := by
  refine ⟨?_, ?_, ?_⟩
  · have hp := parse_fred_ok rows1 h1
    refine ⟨by simp [fetch_series, hp], by simp [fetch_series, hp], ?_⟩
    have hc : (fetch_series (some k1) (.ok rows1)).1.count
        = (rows1.filter (fun o => !fred_sentinel o)).length := by
      simp [fetch_series, hp]
    rw [hc, ← List.countP_eq_length_filter, countP_not_add]
  · have hp := parse_eia_ok rows2 h2
    refine ⟨by simp [fetch_distillate_stocks, hp],
      by simp [fetch_distillate_stocks, hp], ?_⟩
    have hc : (fetch_distillate_stocks (some k2) (.ok rows2)).1.count
        = (rows2.filter (fun o => !eia_null o)).length := by
      simp [fetch_distillate_stocks, hp]
    rw [hc, ← List.countP_eq_length_filter, countP_not_add]
  · refine ⟨by decide,
      ⟨⟨1, "FRED", some "/series/observations", some "DCOILBRENTEU", 7, some 7,
        "success", 4, none⟩, by decide, rfl, rfl⟩⟩

lemma fas_series_outcome (a : Option String) (u : Upstream RawObs) (rf : Obs → Bool)
    (db : DB) (sid : String) (now : Nat) :
    (fetch_and_store_series a u rf db sid now).outcome
      = selector_outcome_fred a u rf sid := by
  cases hs : (fetch_series a u).1.success with
  | false =>
    rw [fas_series_fin_error a u rf db sid now hs]
    simp [selector_outcome_fred, hs]
  | true =>
    rw [fas_series_fin_success a u rf db sid now hs]
    simp [selector_outcome_fred, hs, gApply_count]

lemma fas_stocks_outcome (a : Option String) (u : Upstream RawStock)
    (rf : StockObs → Bool) (db : DB) (area : String) (now : Nat) :
    (fetch_and_store_stocks a u rf db area now).outcome
      = selector_outcome_eia a u rf area := by
  cases hs : (fetch_distillate_stocks a u).1.success with
  | false =>
    rw [fas_stocks_fin_error a u rf db area now hs]
    simp [selector_outcome_eia, hs]
  | true =>
    rw [fas_stocks_fin_success a u rf db area now hs]
    simp [selector_outcome_eia, hs, gApply_count]

lemma fetch_all_series_aux_results (a : Option String)
    (us : String → Upstream RawObs) (rf : Obs → Bool) (now : Nat) (db : DB)
    (keys : List String) :
    (fetch_all_series_aux a us rf now db keys).1
      = keys.map (fun sid => selector_outcome_fred a (us sid) rf sid) := by
  induction keys generalizing db with
  | nil => rfl
  | cons sid rest ih => simp [fetch_all_series_aux, fas_series_outcome, ih]

lemma fetch_all_stocks_aux_results (a : Option String)
    (us : String → Upstream RawStock) (rf : StockObs → Bool) (now : Nat) (db : DB)
    (keys : List String) :
    (fetch_all_stocks_aux a us rf now db keys).1
      = keys.map (fun area => selector_outcome_eia a (us area) rf area) := by
  induction keys generalizing db with
  | nil => rfl
  | cons area rest ih => simp [fetch_all_stocks_aux, fas_stocks_outcome, ih]

/-- C8: the fan-out over the registry always yields one per-selector result
for every selector (4 FRED series, 6 EIA areas), each determined by that
selector's own fetch alone -- so one selector's failure cannot suppress the
others -- and the route aggregate is the per-selector list plus the succeeded
count and summed applied records, never a single all-or-nothing outcome. -/
theorem fanout_isolation (a1 : Option String) (us1 : String → Upstream RawObs)
    (rf1 : Obs → Bool) (db1 : DB) (n1 : Nat) (a2 : Option String)
    (us2 : String → Upstream RawStock) (rf2 : StockObs → Bool) (db2 : DB)
    (n2 : Nat) :
    (fetch_all_series a1 us1 rf1 db1 n1).1
      = (FRED_SERIES.map (fun e => e.1)).map
          (fun sid => selector_outcome_fred a1 (us1 sid) rf1 sid) ∧
    (fetch_all_series a1 us1 rf1 db1 n1).1.length = 4 ∧
    (∀ (u : Upstream RawObs) (rf : Obs → Bool) (sid : String),
      (selector_outcome_fred a1 u rf sid).isOk = (fetch_series a1 u).1.success) ∧
    (fetch_all_fred a1 us1 rf1 db1 n1).1
      = summarize (fetch_all_series a1 us1 rf1 db1 n1).1 ∧
    (fetch_all_stocks a2 us2 rf2 db2 n2).1
      = (EIA_AREAS.map (fun e => e.1)).map
          (fun area => selector_outcome_eia a2 (us2 area) rf2 area) ∧
    (fetch_all_stocks a2 us2 rf2 db2 n2).1.length = 6 := by
  have hf := fetch_all_series_aux_results a1 us1 rf1 n1 db1
    (FRED_SERIES.map (fun e => e.1))
  have he := fetch_all_stocks_aux_results a2 us2 rf2 n2 db2
    (EIA_AREAS.map (fun e => e.1))
  refine ⟨hf, ?_, ?_, rfl, he, ?_⟩
  · rw [show (fetch_all_series a1 us1 rf1 db1 n1).1
        = (fetch_all_series_aux a1 us1 rf1 n1 db1 (FRED_SERIES.map (fun e => e.1))).1
      from rfl, hf]
    rfl
  · intro u rf sid
    cases hs : (fetch_series a1 u).1.success <;>
      simp [selector_outcome_fred, hs, StoreOutcome.isOk]
  · rw [show (fetch_all_stocks a2 us2 rf2 db2 n2).1
        = (fetch_all_stocks_aux a2 us2 rf2 n2 db2 (EIA_AREAS.map (fun e => e.1))).1
      from rfl, he]
    rfl

/-- C9 counterexample: the three-observation batch with a duplicated date is
reported with applied count 3 (every upsert execution is counted, the update
included), not 2 as the claim states, while the store does end with a single
row for the duplicated date. -/
theorem records_count_duplicate_date_counterexample :
    (fetch_and_store_series (some "k") (.ok exRawsDup) (fun _ => false)
        dbEmpty "DCOILBRENTEU" 7).outcome = .ok "DCOILBRENTEU" 3 ∧
    (3 : Nat) ≠ 2 ∧
    (fetch_and_store_series (some "k") (.ok exRawsDup) (fun _ => false)
        dbEmpty "DCOILBRENTEU" 7).db_fin.fetch_log
      = [⟨1, "FRED", some "/series/observations", some "DCOILBRENTEU", 7, some 7,
          "success", 3, none⟩] ∧
    (fetch_and_store_series (some "k") (.ok exRawsDup) (fun _ => false)
        dbEmpty "DCOILBRENTEU" 7).db_fin.prices.length = 2 := by
  decide

/-- C9 amended: for a successful ingestion the count written to the audit
entry's records_fetched equals the number of per-row upsert executions (every
non-failing observation counted, updates of an already-present key included),
not the table growth: the duplicated-date 3-point batch reports 3 while the
store ends with one row for 2024-01-02 valued 71.5 (2 rows in total). -/
theorem records_count_counts_each_execution (a : Option String)
    (u : Upstream RawObs) (rf : Obs → Bool) (db : DB) (sid : String) (now : Nat)
    (h : (fetch_series a u).1.success = true) :
    (fetch_and_store_series a u rf db sid now).outcome
      = .ok sid ((fetch_series a u).1.data.countP (fun o => !rf o)) ∧
    (∃ e, (fetch_and_store_series a u rf db sid now).db_fin.fetch_log
        = db.fetch_log ++ [e] ∧ e.status = "success" ∧
        e.records_fetched = (fetch_series a u).1.data.countP (fun o => !rf o)) ∧
    ((fetch_and_store_series (some "k") (.ok exRawsDup) (fun _ => false)
        dbEmpty "DCOILBRENTEU" 7).outcome = .ok "DCOILBRENTEU" 3 ∧
     (fetch_and_store_series (some "k") (.ok exRawsDup) (fun _ => false)
        dbEmpty "DCOILBRENTEU" 7).db_fin.prices
       = [⟨1, ("FRED", "DCOILBRENTEU", "2024-01-01"), some 70, some "$/bbl", 7⟩,
          ⟨2, ("FRED", "DCOILBRENTEU", "2024-01-02"), some (mkRat 143 2),
            some "$/bbl", 7⟩]) := by
  refine ⟨?_, ?_, by decide⟩
  · rw [fas_series_outcome a u rf db sid now]
    simp [selector_outcome_fred, h]
  · rw [fas_series_fin_success a u rf db sid now h]
    exact ⟨_, rfl, rfl, gApply_count rf (fun o : Obs => (("FRED" : String), sid, o.date))
      (fun o => o.value) (fun _ => fred_unit sid) now db.prices
      (fetch_series a u).1.data⟩

/-- Closed witness for records_count_counts_each_execution at the concrete
duplicated-date batch. -/
theorem records_count_counts_each_execution_witness :
    (fetch_series (some "k") (.ok exRawsDup)).1.success = true ∧
    (fetch_and_store_series (some "k") (.ok exRawsDup) (fun _ => false)
        dbEmpty "DCOILBRENTEU" 7).outcome
      = .ok "DCOILBRENTEU"
          ((fetch_series (some "k") (.ok exRawsDup)).1.data.countP
            (fun o => !(fun _ : Obs => false) o)) :=
  ⟨by decide, (records_count_counts_each_execution (some "k") (.ok exRawsDup)
    (fun _ => false) dbEmpty "DCOILBRENTEU" 7 (by decide)).1⟩

/-- Closed witness for sentinel_points_dropped at the concrete five-point
response with one "." sentinel. -/
theorem sentinel_points_dropped_witness :
    (∀ o ∈ exRawsSentinel, fred_bad_point o = false) ∧
    (fetch_series (some "k") (.ok exRawsSentinel)).1.count
      + exRawsSentinel.countP fred_sentinel = exRawsSentinel.length :=
  ⟨by decide, (sentinel_points_dropped "k" "k" exRawsSentinel []
    (by decide) (by decide)).1.2.2⟩

/-- C1: applying the same observation batch twice through the upsert write of
fetch_and_store_series / fetch_and_store_stocks leaves the stored observation
content (ids, keys, values, units) and the applied-row count identical to one
application; when the two passes share a fetch timestamp the stored states are
identical outright. -/
theorem idempotent_upsert_batch (rf1 : Obs → Bool) (sid : String)
    (t1 : List PriceRow) (b1 : List Obs) (rf2 : StockObs → Bool) (region : String)
    (t2 : List InvRow) (b2 : List StockObs) (n1 n2 m1 m2 : Nat) :
    (let A1 := gApply rf1 (fun o : Obs => (("FRED" : String), sid, o.date))
        (fun o => o.value) (fun _ => fred_unit sid) n1 t1 b1
     let A2 := gApply rf1 (fun o : Obs => (("FRED" : String), sid, o.date))
        (fun o => o.value) (fun _ => fred_unit sid) n2 A1.1 b1
     eraseT A2.1 = eraseT A1.1 ∧ A2.2 = A1.2 ∧ (n2 = n1 → A2.1 = A1.1)) ∧
    (let B1 := gApply rf2
        (fun o : StockObs => (("EIA" : String), region, ("distillate" : String), o.date))
        (fun o => o.value) (fun _ => ("thousand_barrels" : String)) m1 t2 b2
     let B2 := gApply rf2
        (fun o : StockObs => (("EIA" : String), region, ("distillate" : String), o.date))
        (fun o => o.value) (fun _ => ("thousand_barrels" : String)) m2 B1.1 b2
     eraseT B2.1 = eraseT B1.1 ∧ B2.2 = B1.2 ∧ (m2 = m1 → B2.1 = B1.1)) :=
  ⟨gApply_twice _ _ _ _ n1 n2 t1 b1, gApply_twice _ _ _ _ m1 m2 t2 b2⟩

/-- Closed witness for idempotent_upsert_batch: a concrete double application
at equal timestamps, with the inner equal-timestamp implication discharged. -/
theorem idempotent_upsert_batch_witness :
    (7 : Nat) = 7 ∧
    (let A1 := gApply (fun _ => false)
        (fun o : Obs => (("FRED" : String), "DCOILBRENTEU", o.date))
        (fun o => o.value) (fun _ => fred_unit "DCOILBRENTEU") 7 []
        [⟨"2024-01-01", 70⟩, ⟨"2024-01-02", (143 : ℚ)/2⟩]
     let A2 := gApply (fun _ => false)
        (fun o : Obs => (("FRED" : String), "DCOILBRENTEU", o.date))
        (fun o => o.value) (fun _ => fred_unit "DCOILBRENTEU") 7 A1.1
        [⟨"2024-01-01", 70⟩, ⟨"2024-01-02", (143 : ℚ)/2⟩]
     A2.1 = A1.1) :=
  ⟨rfl, (idempotent_upsert_batch (fun _ => false) "DCOILBRENTEU" []
      [⟨"2024-01-01", 70⟩, ⟨"2024-01-02", (143 : ℚ)/2⟩]
      (fun _ => false) "US" [] [] 7 7 7 7).1.2.2 rfl⟩

/-- C2: in every reachable database state the natural key tuples of both
observation tables are unique across rows, and a further apply hitting an
existing key rewrites that row in place (value and fetch timestamp) with the
table length unchanged, rather than inserting a new row. -/
theorem reachable_key_unique (db : DB) (h : Reachable db) :
    UniqueKeys db.prices ∧ UniqueKeys db.inventories ∧
    (∀ k v u now, k ∈ keysOf db.prices →
      gUpsert db.prices k v u now = db.prices.map
        (fun r => if r.key = k then { r with value := some v, fetched_at := now } else r) ∧
      (gUpsert db.prices k v u now).length = db.prices.length) ∧
    (∀ k v u now, k ∈ keysOf db.inventories →
      gUpsert db.inventories k v u now = db.inventories.map
        (fun r => if r.key = k then { r with value := some v, fetched_at := now } else r) ∧
      (gUpsert db.inventories k v u now).length = db.inventories.length) := by
  have key : UniqueKeys db.prices ∧ UniqueKeys db.inventories := by
    induction h with
    | empty => exact ⟨by simp [UniqueKeys, keysOf], by simp [UniqueKeys, keysOf]⟩
    | fred a u rf db0 sid now _ ih =>
      cases hs : (fetch_series a u).1.success with
      | false =>
        rw [fas_series_fin_error a u rf db0 sid now hs]
        exact ih
      | true =>
        rw [fas_series_fin_success a u rf db0 sid now hs]
        exact ⟨uniqueKeys_gApply _ _ _ _ now db0.prices _ ih.1, ih.2⟩
    | eia a u rf db0 area now _ ih =>
      cases hs : (fetch_distillate_stocks a u).1.success with
      | false =>
        rw [fas_stocks_fin_error a u rf db0 area now hs]
        exact ih
      | true =>
        rw [fas_stocks_fin_success a u rf db0 area now hs]
        exact ⟨ih.1, uniqueKeys_gApply _ _ _ _ now db0.inventories _ ih.2⟩
  refine ⟨key.1, key.2, ?_, ?_⟩
  · intro k v u now hk
    refine ⟨gUpsert_present v u now hk, ?_⟩
    rw [gUpsert_present v u now hk, List.length_map]
  · intro k v u now hk
    refine ⟨gUpsert_present v u now hk, ?_⟩
    rw [gUpsert_present v u now hk, List.length_map]

/-- Closed witness for reachable_key_unique: the state reached by one
concrete FRED ingestion from the empty database has unique price keys. -/
theorem reachable_key_unique_witness :
    UniqueKeys (fetch_and_store_series (some "k") (.ok exRawsDup) (fun _ => false)
      dbEmpty "DCOILBRENTEU" 7).db_fin.prices :=
  (reachable_key_unique _ (Reachable.fred (some "k") (.ok exRawsDup)
    (fun _ => false) dbEmpty "DCOILBRENTEU" 7 Reachable.empty)).1

/-- C3 counterexample: re-ingesting a key whose stored row carries a
different unit leaves the stored unit untouched (the ON CONFLICT SET clause
covers only value and fetched_at), so the conflict write does not update the
unit as the claim states. -/
theorem upsert_conflict_unit_counterexample :
    (fetch_and_store_series (some "k") (.ok [⟨"2024-01-01", some "71.0"⟩])
        (fun _ => false) dbStale "DCOILBRENTEU" 9).db_fin.prices
      = [⟨1, ("FRED", "DCOILBRENTEU", "2024-01-01"), some 71, some "stale-unit", 9⟩] ∧
    fred_unit "DCOILBRENTEU" = "$/bbl" ∧
    some "stale-unit" ≠ some "$/bbl" := by
  refine ⟨by decide, by decide, by decide⟩

/-- C3 amended: for an observation whose natural key already exists, the
conflict-aware write updates the existing row's value and fetch timestamp in
place, leaving the row's id, its unit, the insertion order and the table
length unchanged. -/
theorem upsert_conflict_updates_value_timestamp {κ : Type} [DecidableEq κ]
    (t : List (GRow κ)) (k : κ) (v : ℚ) (u : String) (now : Nat)
    (h : k ∈ keysOf t) :
    gUpsert t k v u now = t.map
      (fun r => if r.key = k then { r with value := some v, fetched_at := now } else r) ∧
    (gUpsert t k v u now).length = t.length ∧
    (gUpsert t k v u now).map (fun r => r.id) = t.map (fun r => r.id) ∧
    (gUpsert t k v u now).map (fun r => r.unit) = t.map (fun r => r.unit) := by
  refine ⟨gUpsert_present v u now h, ?_, ?_, ?_⟩
  · rw [gUpsert_present v u now h, List.length_map]
  · rw [gUpsert_present v u now h, List.map_map]
    exact List.map_congr_left (fun r _ => by by_cases hr : r.key = k <;> simp [hr])
  · rw [gUpsert_present v u now h, List.map_map]
    exact List.map_congr_left (fun r _ => by by_cases hr : r.key = k <;> simp [hr])

/-- Closed witness for upsert_conflict_updates_value_timestamp at a concrete
stored row and key. -/
theorem upsert_conflict_updates_value_timestamp_witness :
    (("FRED", "DCOILBRENTEU", "2024-01-01") : PriceKey) ∈ keysOf dbStale.prices ∧
    (gUpsert dbStale.prices ("FRED", "DCOILBRENTEU", "2024-01-01") 71 "$/bbl" 9).map
      (fun r => r.id) = dbStale.prices.map (fun r => r.id) :=
  ⟨by decide, (upsert_conflict_updates_value_timestamp dbStale.prices
    ("FRED", "DCOILBRENTEU", "2024-01-01") 71 "$/bbl" 9 (by decide)).2.2.1⟩

/-- Closed witness for failed_fetch_no_rows: instantiated with no API key
configured, where both fetches fail. -/
theorem failed_fetch_no_rows_witness :
    (fetch_series none (.ok exRawsSentinel)).1.success = false ∧
    (fetch_and_store_series none (.ok exRawsSentinel) (fun _ => false) dbEmpty
      "DCOILBRENTEU" 7).db_fin.prices = dbEmpty.prices := by
  refine ⟨rfl, ?_⟩
  exact (failed_fetch_no_rows none none (.ok exRawsSentinel)
    (.ok [] ) (fun _ => false) (fun _ => false) dbEmpty dbEmpty
    "DCOILBRENTEU" "NUS" 7 7 rfl rfl).1.2.1

end DieselAnalyst
